import Mathlib

/-
Verification of the clan-bot membership core: a shallow embedding of the
repository layer (src/database/repository.py over src/database/models.py),
the rate-limiting middleware (src/bot/middleware/rate_limit.py), the input
validators (src/utils/validators.py) and the registration/admin handlers
(src/bot/handlers/registration.py, src/bot/handlers/admin.py,
src/bot/handlers/decorators.py).

Modelling conventions:
- Database sessions and transactions are elided; a `DB` value is the state of
  the two tables.  Server-assigned timestamps (`created_at`,
  `registration_date`, `datetime.now()`) are passed in as explicit `Nat`
  parameters.
- SQLAlchemy's `IntegrityError` raised by the UNIQUE constraint on
  `telegram_id` is modelled by checking the constraint on insert;
  `scalar_one_or_none` is modelled exactly (it raises when the filtered
  result set has more than one row).
- Clock values in the rate limiter are `Int` (Python uses `time.time()`
  floats; `int(x)` truncation is the identity on integral times).
- Python `str.strip()` is `pyStrip` (drop ASCII whitespace at both ends),
  `str.startswith` is `startswith` (prefix test on the character list),
  and Python's falsy-`or` on an optional string is expanded at each use site.
-/

namespace ClanBot

/- ===== Data model: table rows (src/database/models.py) ===== -/

/-- Errors surfaced by the storage layer in the embedding. -/
inductive RepoError where
  | integrityError
  | multipleResultsFound
deriving Repr, DecidableEq

/-- A row of the `players` table (models.Player). -/
structure PlayerRow where
  telegram_id : Int
  username : String
  nickname : String
  screenshot_path : Option String
  registration_date : Nat
  status : String
  added_by : String
  exclusion_date : Option Nat
  exclusion_reason : Option String
  excluded_by : Option String
  notes : Option String
  created_at : Nat
deriving Repr, DecidableEq

/-- A row of the `pending_registrations` table (models.PendingRegistration). -/
structure PendingRow where
  telegram_id : Int
  username : String
  nickname : String
  screenshot_path : String
  created_at : Nat
deriving Repr, DecidableEq

/-- The two tables, in insertion order. -/
structure DB where
  players : List PlayerRow
  pendings : List PendingRow
deriving Repr, DecidableEq

/- ===== Data model: dataclasses (src/models/player.py) ===== -/

/-- The `Player` dataclass handed to `add_player`. -/
structure Player where
  telegram_id : Int
  username : String
  nickname : String
  screenshot_path : Option String
  registration_date : String
  status : String
  added_by : String
  notes : String
deriving Repr, DecidableEq

/-- The `PendingRegistration` dataclass handed to `save_pending`. -/
structure PendingRegistration where
  telegram_id : Int
  username : String
  nickname : String
  screenshot_path : String
  timestamp : String
deriving Repr, DecidableEq

/- ===== Repository operations (src/database/repository.py) ===== -/

/-- SQLAlchemy `Result.scalar_one_or_none` on an already-filtered row list. -/
def scalarOneOrNone {α : Type} : List α → Except RepoError (Option α)
  | [] => .ok none
  | [a] => .ok (some a)
  | _ :: _ :: _ => .error .multipleResultsFound

/-- Rows of `players` matching a `WHERE telegram_id = ...` filter. -/
def playersWithId (db : DB) (telegram_id : Int) : List PlayerRow :=
  db.players.filter (fun r => r.telegram_id == telegram_id)

/-- Rows of `pending_registrations` matching a `WHERE telegram_id = ...` filter. -/
def pendingsWithId (db : DB) (telegram_id : Int) : List PendingRow :=
  db.pendings.filter (fun r => r.telegram_id == telegram_id)

/-- `PlayerRepository.add_player`: insert a row built from the dataclass;
the UNIQUE constraint on `players.telegram_id` raises `IntegrityError` when a
row with the same id already exists.  `registration_date`, `created_at` are
server defaults (`now`). -/
def add_player (db : DB) (player : Player) (now : Nat) :
    Except RepoError (DB × PlayerRow) :=
  if db.players.any (fun r => r.telegram_id == player.telegram_id) then
    .error .integrityError
  else
    let row : PlayerRow :=
      { telegram_id := player.telegram_id
        username := player.username
        nickname := player.nickname
        screenshot_path := player.screenshot_path
        registration_date := now
        status := player.status
        added_by := player.added_by
        exclusion_date := none
        exclusion_reason := none
        excluded_by := none
        notes := some player.notes
        created_at := now }
    .ok ({ db with players := db.players ++ [row] }, row)

/-- `PlayerRepository.get_player`. -/
def get_player (db : DB) (telegram_id : Int) : Except RepoError (Option PlayerRow) :=
  scalarOneOrNone (playersWithId db telegram_id)

/-- `PlayerRepository.check_player_exists`. -/
def check_player_exists (db : DB) (telegram_id : Int) : Except RepoError Bool :=
  (get_player db telegram_id).map Option.isSome

/-- Insertion step of an `ORDER BY key DESC` sort. -/
def insertDescBy {α : Type} (key : α → Nat) (a : α) : List α → List α
  | [] => [a]
  | b :: bs => if key a ≤ key b then b :: insertDescBy key a bs else a :: b :: bs

/-- `ORDER BY key DESC` as an insertion sort. -/
def sortDescBy {α : Type} (key : α → Nat) (l : List α) : List α :=
  l.foldr (insertDescBy key) []

/-- `PlayerRepository.get_all_players`: all rows, `ORDER BY created_at DESC`. -/
def get_all_players (db : DB) : List PlayerRow :=
  sortDescBy (fun p => p.created_at) db.players

/-- The field updates performed by `exclude_player` on the found row. -/
def excludeStamp (reason excluded_by : String) (now : Nat) (r : PlayerRow) : PlayerRow :=
  { r with
    status := "Отчислен"
    exclusion_date := some now
    exclusion_reason := some reason
    excluded_by := some excluded_by }

/-- `PlayerRepository.exclude_player`: look the row up by `telegram_id`; when
found, unconditionally stamp status `Отчислен` and the exclusion metadata and
return `true`; return `false` when no row exists. -/
def exclude_player (db : DB) (telegram_id : Int) (reason excluded_by : String)
    (now : Nat) : Except RepoError (DB × Bool) :=
  match scalarOneOrNone (playersWithId db telegram_id) with
  | .error e => .error e
  | .ok none => .ok (db, false)
  | .ok (some _) =>
      .ok ({ db with
              players := db.players.map (fun r =>
                if r.telegram_id == telegram_id then
                  excludeStamp reason excluded_by now r
                else r) },
           true)

/-- `PlayerRepository.save_pending`: insert a row built from the dataclass;
the UNIQUE constraint on `pending_registrations.telegram_id` raises
`IntegrityError` when a row with the same id already exists. -/
def save_pending (db : DB) (pending : PendingRegistration) (now : Nat) :
    Except RepoError (DB × PendingRow) :=
  if db.pendings.any (fun r => r.telegram_id == pending.telegram_id) then
    .error .integrityError
  else
    let row : PendingRow :=
      { telegram_id := pending.telegram_id
        username := pending.username
        nickname := pending.nickname
        screenshot_path := pending.screenshot_path
        created_at := now }
    .ok ({ db with pendings := db.pendings ++ [row] }, row)

/-- `PlayerRepository.get_pending`. -/
def get_pending (db : DB) (telegram_id : Int) : Except RepoError (Option PendingRow) :=
  scalarOneOrNone (pendingsWithId db telegram_id)

/-- `PlayerRepository.remove_pending`. -/
def remove_pending (db : DB) (telegram_id : Int) : Except RepoError (DB × Bool) :=
  match scalarOneOrNone (pendingsWithId db telegram_id) with
  | .error e => .error e
  | .ok none => .ok (db, false)
  | .ok (some _) =>
      .ok ({ db with
              pendings := db.pendings.filter (fun r => !(r.telegram_id == telegram_id)) },
           true)

/-- `PlayerRepository.get_all_pending`: all rows, `ORDER BY created_at DESC`. -/
def get_all_pending (db : DB) : List PendingRow :=
  sortDescBy (fun p => p.created_at) db.pendings

/- ===== Rate limiter (src/bot/middleware/rate_limit.py) ===== -/

/-- `RateLimitMiddleware._cleanup_old_timestamps`: keep only timestamps
strictly newer than `current_time - time_window`. -/
def cleanup_old_timestamps (time_window : Int) (timestamps : List Int)
    (current_time : Int) : List Int :=
  let cutoff_time := current_time - time_window
  timestamps.filter (fun ts => cutoff_time < ts)

/-- `RateLimitMiddleware._is_rate_limited` on one actor's stored list.
Returns the written-back cleaned list, the decision, and
`seconds_until_reset`.  `none` models the `ValueError` Python's `min` raises
on an empty list (reachable only with `rate_limit = 0`). -/
def is_rate_limited (rate_limit : Nat) (time_window : Int) (prev : List Int)
    (current_time : Int) : Option (List Int × Bool × Int) :=
  let timestamps := cleanup_old_timestamps time_window prev current_time
  if rate_limit ≤ timestamps.length then
    match timestamps.min? with
    | some oldest => some (timestamps, true, (time_window - (current_time - oldest)) + 1)
    | none => none
  else
    some (timestamps, false, 0)

/-- `RateLimitMiddleware.__call__` on one actor: check, and append the
current time via `_record_request` only when admitted. -/
def rateLimitStep (rate_limit : Nat) (time_window : Int) (prev : List Int)
    (now : Int) : Option (List Int × Bool × Int) :=
  match is_rate_limited rate_limit time_window prev now with
  | none => none
  | some (ts, true, s) => some (ts, true, s)
  | some (ts, false, _) => some (ts ++ [now], false, 0)

/- ===== Validators (src/utils/validators.py) ===== -/

/-- Python `str.strip()` on the character list: drop ASCII whitespace from
both ends. -/
def pyStripChars (l : List Char) : List Char :=
  (((l.dropWhile Char.isWhitespace).reverse).dropWhile Char.isWhitespace).reverse

/-- Python `str.strip()`. -/
def pyStrip (s : String) : String :=
  ⟨pyStripChars s.data⟩

/-- Python `str.startswith`. -/
def startswith (s pre : String) : Bool :=
  pre.data.isPrefixOf s.data

/-- `validators.validate_nickname`: returns `(is_valid, error_message)`. -/
def validate_nickname (nickname : String) : Bool × String :=
  if pyStrip nickname = "" then (false, "Ник не может быть пустым")
  else
    let nickname := pyStrip nickname
    if nickname.length < 1 then (false, "Ник не может быть пустым")
    else if 15 < nickname.length then
      (false, "Ник слишком длинный. Максимум 15 символов")
    else (true, "")

/-- `validators.normalize_username`: strip, then add a missing `@`. -/
def normalize_username (username : String) : String :=
  let username := pyStrip username
  if startswith username "@" then username else "@" ++ username

/- ===== Conversational state (aiogram FSMContext over
src/bot/states/registration.py) ===== -/

/-- The `RegistrationStates` an actor's conversation can occupy. -/
inductive RegState where
  | waiting_for_captcha
  | waiting_for_nickname
  | waiting_for_screenshot
deriving Repr, DecidableEq

/-- One actor's `FSMContext`: current state (`none` = no active flow) plus
the accumulated `nickname` datum. -/
structure FSMContext where
  state : Option RegState
  nickname : Option String
deriving Repr, DecidableEq

/-- `FSMContext.clear()`. -/
def FSMContext.clear : FSMContext :=
  { state := none, nickname := none }

/-- Outbound replies sent by the handlers (presentation text elided, the
payloads the messages interpolate are kept). -/
inductive Reply where
  | alreadyRegistered
  | alreadyPending
  | startRegistration
  | nicknameInvalid (error : String)
  | nicknameAccepted (nickname : String)
  | nicknameMissing
  | saveFailed
  | applicationSubmitted (nickname : String)
  | requestNotFound
  | approveFailed
  | approved (nickname : String)
  | rejectFailed
  | rejected (username : String)
  | noPending
  | pendingList (pendings : List PendingRow)
  | noPlayers
  | playersList (active excluded : List PlayerRow)
  | excludeUsage
  | playerNotFound (username : String)
  | alreadyExcluded (username : String)
  | excludeFailed
  | excluded (nickname username reason : String)
deriving Repr, DecidableEq

/- ===== Registration handlers (src/bot/handlers/registration.py) ===== -/

/-- `registration.cmd_register`: reject when a `players` row exists, then
when a pending row exists; otherwise prompt for the nickname and move to
`waiting_for_nickname`. -/
def cmd_register (db : DB) (from_user_id : Int) (fsm : FSMContext) :
    Except RepoError (DB × Reply × FSMContext) := do
  let already ← check_player_exists db from_user_id
  if already then
    .ok (db, .alreadyRegistered, fsm)
  else do
    let pending ← get_pending db from_user_id
    match pending with
    | some _ => .ok (db, .alreadyPending, fsm)
    | none =>
        .ok (db, .startRegistration, { fsm with state := some .waiting_for_nickname })

/-- `registration.process_nickname`: strip the text, validate it, and either
re-prompt with the violated rule (state untouched) or store the nickname and
move to `waiting_for_screenshot`. -/
def process_nickname (text : String) (fsm : FSMContext) : Reply × FSMContext :=
  let nickname := pyStrip text
  let v := validate_nickname nickname
  if v.1 then
    (.nicknameAccepted nickname,
     { state := some .waiting_for_screenshot, nickname := some nickname })
  else
    (.nicknameInvalid v.2, fsm)

/-- The display handle stamped on a submission
(registration.process_screenshot lines 133-135): the transport username,
falling back to `user_<id>` when absent or empty, then `@`-prefixed when
missing. -/
def pendingUsername (from_user_username : Option String) (from_user_id : Int) :
    String :=
  let username :=
    match from_user_username with
    | some u => if u = "" then "user_" ++ toString from_user_id else u
    | none => "user_" ++ toString from_user_id
  if startswith username "@" then username else "@" ++ username

/-- `registration.process_screenshot` (persistence core): build the pending
registration from the accumulated nickname, the normalized handle and the
stored screenshot path, save it, and clear the conversation state.  The
admin notification and the file download are external effects outside the
store. -/
def process_screenshot (db : DB) (from_user_id : Int)
    (from_user_username : Option String) (fsm : FSMContext)
    (screenshots_dir timestamp_str : String) (now : Nat) :
    Except RepoError (DB × Reply × FSMContext) :=
  match fsm.nickname with
  | none => .ok (db, .nicknameMissing, FSMContext.clear)
  | some nickname =>
    if nickname = "" then .ok (db, .nicknameMissing, FSMContext.clear)
    else
      let local_path :=
        screenshots_dir ++ "/screenshot_" ++ toString from_user_id ++ "_"
          ++ timestamp_str ++ ".jpg"
      let username := pendingUsername from_user_username from_user_id
      let pending : PendingRegistration :=
        { telegram_id := from_user_id
          username := username
          nickname := nickname
          screenshot_path := local_path
          timestamp := timestamp_str }
      match save_pending db pending now with
      | .error _ => .ok (db, .saveFailed, FSMContext.clear)
      | .ok (db1, _) => .ok (db1, .applicationSubmitted nickname, FSMContext.clear)

/- ===== Admin handlers (src/bot/handlers/admin.py) ===== -/

/-- Python `f"@{x or y}"` for an optional username falling back to the
numeric id (admin.py lines 58 and 271). -/
def atHandle (from_user_username : Option String) (from_user_id : Int) : String :=
  "@" ++
    match from_user_username with
    | some u => if u = "" then toString from_user_id else u
    | none => toString from_user_id

/-- `admin.process_approve` (callback `approve:<id>`): load the pending
request; absent signals not-found; an existing `players` row signals
already-registered and removes the stale pending row; otherwise build the
`Player` (status `Активен`, added-by the approving actor's handle), add it
and remove the pending row.  A storage exception inside the try block is
caught and reported as a failure. -/
def process_approve (db : DB) (telegram_id : Int)
    (from_user_username : Option String) (from_user_id : Int)
    (today_str : String) (now : Nat) : Except RepoError (DB × Reply) := do
  let pending ← get_pending db telegram_id
  match pending with
  | none => .ok (db, .requestNotFound)
  | some pending =>
    let already ← check_player_exists db telegram_id
    if already then
      match remove_pending db telegram_id with
      | .error e => .error e
      | .ok (db1, _) => .ok (db1, .alreadyRegistered)
    else
      let player : Player :=
        { telegram_id := pending.telegram_id
          username := pending.username
          nickname := pending.nickname
          screenshot_path := some pending.screenshot_path
          registration_date := today_str
          status := "Активен"
          added_by := atHandle from_user_username from_user_id
          notes := "Одобрено через бот" }
      match add_player db player now with
      | .error _ => .ok (db, .approveFailed)
      | .ok (db1, _) =>
        match remove_pending db1 telegram_id with
        | .error _ => .ok (db1, .approveFailed)
        | .ok (db2, _) => .ok (db2, .approved pending.nickname)

/-- `admin.process_reject` (callback `reject:<id>`): load the pending
request; absent signals not-found; otherwise remove it. -/
def process_reject (db : DB) (telegram_id : Int) : Except RepoError (DB × Reply) := do
  let pending ← get_pending db telegram_id
  match pending with
  | none => .ok (db, .requestNotFound)
  | some pending =>
    match remove_pending db telegram_id with
    | .error _ => .ok (db, .rejectFailed)
    | .ok (db1, _) => .ok (db1, .rejected pending.username)

/-- `admin.cmd_pending`: read-only listing of pending requests. -/
def cmd_pending (db : DB) : Except RepoError (DB × Reply) :=
  let pending_list := get_all_pending db
  if pending_list.isEmpty then .ok (db, .noPending)
  else .ok (db, .pendingList pending_list)

/-- `admin.cmd_list`: read-only listing, partitioned by status for display. -/
def cmd_list (db : DB) : Except RepoError (DB × Reply) :=
  let players := get_all_players db
  if players.isEmpty then .ok (db, .noPlayers)
  else
    let active_players := players.filter (fun p => p.status == "Активен")
    let excluded_players := players.filter (fun p => p.status == "Отчислен")
    .ok (db, .playersList active_players excluded_players)

/-- `admin.cmd_exclude` after argument parsing: normalize the handle, resolve
it against `get_all_players` with `next(...)` (first match in the
newest-first listing), refuse an absent or already-excluded player, and
exclude the resolved player by their `telegram_id`. -/
def cmd_exclude (db : DB) (username_arg reason : String)
    (from_user_username : Option String) (from_user_id : Int) (now : Nat) :
    Except RepoError (DB × Reply) :=
  let username := normalize_username username_arg
  let players := get_all_players db
  match players.find? (fun p => p.username == username) with
  | none => .ok (db, .playerNotFound username)
  | some player =>
    if player.status == "Отчислен" then .ok (db, .alreadyExcluded username)
    else
      let excluded_by := atHandle from_user_username from_user_id
      match exclude_player db player.telegram_id reason excluded_by now with
      | .error _ => .ok (db, .excludeFailed)
      | .ok (db1, _) => .ok (db1, .excluded player.nickname username reason)

/- ===== Access control (src/bot/handlers/decorators.py) ===== -/

/-- Outcome of a handler wrapped by `admin_only`: either the fixed
access-denied answer, or the wrapped handler's own result. -/
inductive Gated (ρ : Type) where
  | accessDenied
  | ran (r : ρ)
deriving Repr, DecidableEq

/-- `decorators.admin_only`: when the calling actor's id differs from the
configured `leader_telegram_id`, answer the denial message and return without
invoking the wrapped handler; otherwise run it. -/
def admin_only {ρ : Type} (leader_telegram_id user_id : Int)
    (handler : DB → Except RepoError (DB × ρ)) (db : DB) :
    Except RepoError (DB × Gated ρ) :=
  if user_id ≠ leader_telegram_id then
    .ok (db, .accessDenied)
  else
    (handler db).map (fun r => (r.1, .ran r.2))

/- ===== Spec-worded admission control, for comparison with the code
(claim about src/bot/middleware/rate_limit.py) ===== -/

/-- The admission check as the spec sentence words it: discard all timestamps
strictly OLDER than `now - window` (a timestamp equal to the cutoff is kept),
deny when at least `limit` remain with
`retry_after = window - (now - oldest_remaining) + 1` and record nothing,
otherwise admit and append `now`. -/
def admissionSpecClaimed (limit : Nat) (window : Int) (history : List Int)
    (now : Int) : Option (List Int × Bool × Int) :=
  let remaining := history.filter (fun ts => now - window ≤ ts)
  if limit ≤ remaining.length then
    match remaining.min? with
    | some oldest => some (remaining, true, window - (now - oldest) + 1)
    | none => none
  else some (remaining ++ [now], false, 0)

/-- The admission check with the cutoff amended to what the code does:
discard every timestamp AT OR older than `now - window` (keep strictly newer
ones); the rest of the sentence is unchanged. -/
def admissionSpecAmended (limit : Nat) (window : Int) (history : List Int)
    (now : Int) : Option (List Int × Bool × Int) :=
  let remaining := history.filter (fun ts => now - window < ts)
  if limit ≤ remaining.length then
    match remaining.min? with
    | some oldest => some (remaining, true, window - (now - oldest) + 1)
    | none => none
  else some (remaining ++ [now], false, 0)

/- ===== Concrete fixtures used by counterexamples and witnesses ===== -/

/-- A `players` row with the given key fields and no exclusion metadata. -/
def mkPlayerRow (tid : Int) (uname nick status : String) (created : Nat) :
    PlayerRow :=
  { telegram_id := tid
    username := uname
    nickname := nick
    screenshot_path := none
    registration_date := created
    status := status
    added_by := "bot"
    exclusion_date := none
    exclusion_reason := none
    excluded_by := none
    notes := some ""
    created_at := created }

/-- A `pending_registrations` row with the given key fields. -/
def mkPendingRow (tid : Int) (uname nick : String) (created : Nat) : PendingRow :=
  { telegram_id := tid
    username := uname
    nickname := nick
    screenshot_path := "screenshots/s.jpg"
    created_at := created }

/-- One active member with id 42. -/
def exDbActive42 : DB :=
  { players := [mkPlayerRow 42 "@bob" "Bob" "Активен" 0], pendings := [] }

/-- `exDbActive42` after `exclude_player 42 "r1" "@a1"` at time 100. -/
def exDbExcludedOnce : DB :=
  { players := [{ mkPlayerRow 42 "@bob" "Bob" "Отчислен" 0 with
                   exclusion_date := some 100
                   exclusion_reason := some "r1"
                   excluded_by := some "@a1" }]
    pendings := [] }

/-- `exDbExcludedOnce` after a second `exclude_player 42 "r2" "@a2"` at time
200: the exclusion metadata is re-stamped. -/
def exDbExcludedTwice : DB :=
  { players := [{ mkPlayerRow 42 "@bob" "Bob" "Отчислен" 0 with
                   exclusion_date := some 200
                   exclusion_reason := some "r2"
                   excluded_by := some "@a2" }]
    pendings := [] }

/-- One pending request for actor 7 and no member rows. -/
def exDbPending7 : DB :=
  { players := [], pendings := [mkPendingRow 7 "@eve" "Eve" 3] }

/-- Two active members sharing the display handle `@dup`, created at 1 and 2. -/
def exDbDupHandles : DB :=
  { players := [mkPlayerRow 10 "@dup" "Old" "Активен" 1,
                mkPlayerRow 11 "@dup" "New" "Активен" 2]
    pendings := [] }

/- ===== Shared helper lemmas ===== -/

theorem string_ext {s t : String} (h : s.data = t.data) : s = t := by
  cases s; cases t; exact congrArg String.mk h

theorem string_eq_empty_iff (s : String) : s = "" ↔ s.data = [] := by
  constructor
  · intro h; rw [h]
  · intro h; exact string_ext h

theorem dropWhile_head_not {α : Type} (p : α → Bool) (l : List α) (a : α)
    (as : List α) (h : l.dropWhile p = a :: as) : p a = false := by
  induction l with
  | nil => simp at h
  | cons x xs ih =>
    rw [List.dropWhile_cons] at h
    by_cases hx : p x
    · exact ih (by simpa [hx] using h)
    · rw [if_neg (by simpa using hx)] at h
      cases h
      simpa using hx

theorem dropWhile_getLast? {α : Type} (p : α → Bool) (l : List α)
    (h : l.dropWhile p ≠ []) : (l.dropWhile p).getLast? = l.getLast? := by
  induction l with
  | nil => simp at h
  | cons x xs ih =>
    rw [List.dropWhile_cons]
    by_cases hx : p x
    · rw [if_pos hx]
      rw [List.dropWhile_cons, if_pos hx] at h
      have hxs : xs ≠ [] := by
        intro he; rw [he] at h; simp at h
      obtain ⟨y, ys, rfl⟩ := List.exists_cons_of_ne_nil hxs
      rw [ih (by simpa [hx] using h), List.getLast?_cons_cons]
    · rw [if_neg hx]

theorem dropWhile_of_head_not {α : Type} (p : α → Bool) (a : α) (as : List α)
    (h : p a = false) : (a :: as).dropWhile p = a :: as := by
  rw [List.dropWhile_cons, if_neg (by simp [h])]

/-- Python `strip` is idempotent. -/
theorem pyStripChars_idem (l : List Char) :
    pyStripChars (pyStripChars l) = pyStripChars l := by
  set p := Char.isWhitespace with hp
  rcases hD : l.dropWhile p with _ | ⟨c, cs⟩
  · have : pyStripChars l = [] := by
      simp [pyStripChars, ← hp, hD]
    rw [this]; rfl
  · have hc : p c = false := dropWhile_head_not p l c cs hD
    rcases hu : (l.dropWhile p).reverse.dropWhile p with _ | ⟨b, bs⟩
    · have : pyStripChars l = [] := by simp [pyStripChars, ← hp, hu]
      rw [this]; rfl
    · have hb : p b = false := dropWhile_head_not p (l.dropWhile p).reverse b bs hu
      have ht : pyStripChars l = ((l.dropWhile p).reverse.dropWhile p).reverse := by
        simp [pyStripChars, ← hp]
      -- The head of the stripped list is the head of `dropWhile p l`, which
      -- fails `p`; so a second front-pass is the identity.
      have hhead : (pyStripChars l).head? = some c := by
        rw [ht, List.head?_reverse,
            dropWhile_getLast? p (l.dropWhile p).reverse (by rw [hu]; simp),
            List.getLast?_reverse, hD]
        rfl
      obtain ⟨t', ht'⟩ : ∃ t', pyStripChars l = c :: t' := by
        rcases he : pyStripChars l with _ | ⟨z, zs⟩
        · rw [he] at hhead; simp at hhead
        · rw [he] at hhead
          simp only [List.head?_cons, Option.some.injEq] at hhead
          exact ⟨zs, by rw [hhead]⟩
      have hfront : (pyStripChars l).dropWhile p = pyStripChars l := by
        rw [ht']; exact dropWhile_of_head_not p c t' hc
      show ((((pyStripChars l).dropWhile p).reverse).dropWhile p).reverse
            = pyStripChars l
      rw [hfront, ht, List.reverse_reverse, hu,
          dropWhile_of_head_not p b bs hb, ← hu, ← ht]

theorem pyStrip_idem (s : String) : pyStrip (pyStrip s) = pyStrip s :=
  congrArg String.mk (pyStripChars_idem s.data)

theorem mem_insertDescBy {α : Type} (key : α → Nat) (a b : α) (l : List α) :
    b ∈ insertDescBy key a l ↔ b = a ∨ b ∈ l := by
  induction l with
  | nil => simp [insertDescBy]
  | cons x xs ih =>
    rw [insertDescBy]
    by_cases h : key a ≤ key x
    · rw [if_pos h]
      simp only [List.mem_cons, ih]
      try tauto
    · rw [if_neg h]
      simp only [List.mem_cons]
      try tauto

theorem mem_sortDescBy {α : Type} (key : α → Nat) (b : α) (l : List α) :
    b ∈ sortDescBy key l ↔ b ∈ l := by
  induction l with
  | nil => simp [sortDescBy]
  | cons x xs ih =>
    show b ∈ insertDescBy key x (sortDescBy key xs) ↔ _
    rw [mem_insertDescBy, ih]
    simp

theorem pairwise_insertDescBy {α : Type} (key : α → Nat) (a : α) (l : List α)
    (h : l.Pairwise (fun x y => key y ≤ key x)) :
    (insertDescBy key a l).Pairwise (fun x y => key y ≤ key x) := by
  induction l with
  | nil => simp [insertDescBy]
  | cons x xs ih =>
    rw [insertDescBy]
    rcases List.pairwise_cons.mp h with ⟨hx, hxs⟩
    by_cases hk : key a ≤ key x
    · rw [if_pos hk]
      refine List.Pairwise.cons ?_ (ih hxs)
      intro c hc
      rcases (mem_insertDescBy key a c xs).mp hc with rfl | hcm
      · exact hk
      · exact hx c hcm
    · rw [if_neg hk]
      refine List.Pairwise.cons ?_ h
      intro c hc
      rcases List.mem_cons.mp hc with rfl | hcm
      · omega
      · exact le_trans (hx c hcm) (by omega)

theorem pairwise_sortDescBy {α : Type} (key : α → Nat) (l : List α) :
    (sortDescBy key l).Pairwise (fun x y => key y ≤ key x) := by
  induction l with
  | nil => simp [sortDescBy]
  | cons x xs ih => exact pairwise_insertDescBy key x _ ih

theorem find?_pairwise_key_max {α : Type} (key : α → Nat) (p : α → Bool)
    (l : List α) (hs : l.Pairwise (fun x y => key y ≤ key x)) (x : α)
    (hf : l.find? p = some x) : ∀ y ∈ l, p y = true → key y ≤ key x := by
  induction l with
  | nil => simp at hf
  | cons a t ih =>
    rcases List.pairwise_cons.mp hs with ⟨ha, ht⟩
    by_cases hpa : p a
    · rw [List.find?_cons_of_pos t hpa] at hf
      cases hf
      intro y hy _
      rcases List.mem_cons.mp hy with rfl | hym
      · exact le_refl _
      · exact ha y hym
    · rw [List.find?_cons_of_neg t (by simpa using hpa)] at hf
      intro y hy hpy
      rcases List.mem_cons.mp hy with rfl | hym
      · exact absurd hpy (by simpa using hpa)
      · exact ih ht hf y hym hpy

/-- `exclude_player`'s row update commutes with the `telegram_id` filter. -/
theorem filter_excludeStamp_update (l : List PlayerRow) (tid : Int)
    (reason eb : String) (now : Nat) :
    ((l.map (fun r => if r.telegram_id == tid then excludeStamp reason eb now r else r)).filter
        (fun r => r.telegram_id == tid))
      = (l.filter (fun r => r.telegram_id == tid)).map (excludeStamp reason eb now) := by
  induction l with
  | nil => rfl
  | cons a t ih =>
    by_cases h : a.telegram_id == tid
    · have hstamp : (excludeStamp reason eb now a).telegram_id = a.telegram_id := rfl
      simp only [List.map_cons, List.filter_cons, hstamp, h, eq_self_iff_true,
        if_true, ih]
    · simp only [List.map_cons, List.filter_cons, h, Bool.false_eq_true,
        if_false, ih]

/-- Effect of `exclude_player`'s row update on a `telegram_id` lookup. -/
theorem playersWithId_after_exclude (db : DB) (tid : Int) (reason eb : String)
    (now : Nat) (l : List PlayerRow) (h : playersWithId db tid = l) :
    playersWithId
      { db with
        players := db.players.map (fun r =>
          if r.telegram_id == tid then excludeStamp reason eb now r else r) }
      tid = l.map (excludeStamp reason eb now) := by
  show ((db.players.map _).filter _) = _
  rw [filter_excludeStamp_update]
  show (playersWithId db tid).map _ = _
  rw [h]

theorem get_pending_of_one {db : DB} {tid : Int} {p : PendingRow}
    (h : pendingsWithId db tid = [p]) : get_pending db tid = .ok (some p) := by
  rw [get_pending, h]; rfl

theorem get_pending_of_none {db : DB} {tid : Int}
    (h : pendingsWithId db tid = []) : get_pending db tid = .ok none := by
  rw [get_pending, h]; rfl

theorem check_player_exists_of_none {db : DB} {tid : Int}
    (h : playersWithId db tid = []) : check_player_exists db tid = .ok false := by
  rw [check_player_exists, get_player, h]; rfl

theorem check_player_exists_of_one {db : DB} {tid : Int} {m : PlayerRow}
    (h : playersWithId db tid = [m]) : check_player_exists db tid = .ok true := by
  rw [check_player_exists, get_player, h]; rfl

theorem remove_pending_of_one {db : DB} {tid : Int} {p : PendingRow}
    (h : pendingsWithId db tid = [p]) :
    remove_pending db tid =
      .ok ({ db with pendings := db.pendings.filter (fun r => !(r.telegram_id == tid)) },
           true) := by
  rw [remove_pending, h]; rfl

theorem exclude_player_of_one {db : DB} {tid : Int} {x : PlayerRow}
    (reason eb : String) (now : Nat) (h : playersWithId db tid = [x]) :
    exclude_player db tid reason eb now =
      .ok ({ db with
              players := db.players.map (fun r =>
                if r.telegram_id == tid then excludeStamp reason eb now r else r) },
           true) := by
  rw [exclude_player, h]; rfl

theorem exclude_player_of_none {db : DB} {tid : Int} (reason eb : String)
    (now : Nat) (h : playersWithId db tid = []) :
    exclude_player db tid reason eb now = .ok (db, false) := by
  rw [exclude_player, h]; rfl

theorem any_id_eq_false {l : List PlayerRow} {tid : Int}
    (h : ∀ r ∈ l, r.telegram_id ≠ tid) :
    l.any (fun r => r.telegram_id == tid) = false := by
  rw [List.any_eq_false]
  intro r hr
  simpa using h r hr

theorem add_player_ok_of_fresh (db : DB) (p : Player) (now : Nat)
    (h : ∀ r ∈ db.players, r.telegram_id ≠ p.telegram_id) :
    ∃ row : PlayerRow,
      add_player db p now = .ok ({ db with players := db.players ++ [row] }, row)
      ∧ row.telegram_id = p.telegram_id ∧ row.username = p.username
      ∧ row.nickname = p.nickname ∧ row.status = p.status
      ∧ row.added_by = p.added_by ∧ row.created_at = now
      ∧ row.exclusion_date = none ∧ row.exclusion_reason = none
      ∧ row.excluded_by = none := by
  have hfalse : db.players.any (fun r => r.telegram_id == p.telegram_id) = false :=
    any_id_eq_false h
  unfold add_player
  rw [hfalse]
  simp only [Bool.false_eq_true, if_false]
  exact ⟨_, rfl, rfl, rfl, rfl, rfl, rfl, rfl, rfl, rfl, rfl⟩

theorem save_pending_ok_of_fresh (db : DB) (q : PendingRegistration) (now : Nat)
    (h : (db.pendings.any (fun r => r.telegram_id == q.telegram_id)) = false) :
    ∃ row : PendingRow,
      save_pending db q now = .ok ({ db with pendings := db.pendings ++ [row] }, row)
      ∧ row.telegram_id = q.telegram_id ∧ row.username = q.username
      ∧ row.nickname = q.nickname ∧ row.screenshot_path = q.screenshot_path
      ∧ row.created_at = now := by
  unfold save_pending
  rw [h]
  simp only [Bool.false_eq_true, if_false]
  exact ⟨_, rfl, rfl, rfl, rfl, rfl, rfl⟩

theorem save_pending_ok_shape {db : DB} {q : PendingRegistration} {now : Nat}
    {db' : DB} {row : PendingRow} (h : save_pending db q now = .ok (db', row)) :
    db'.pendings = db.pendings ++ [row] ∧ db'.players = db.players
    ∧ row.username = q.username ∧ row.telegram_id = q.telegram_id := by
  unfold save_pending at h
  by_cases hany : db.pendings.any (fun r => r.telegram_id == q.telegram_id)
  · rw [if_pos hany] at h
    exact absurd h (by simp)
  · rw [if_neg hany] at h
    simp only [Except.ok.injEq, Prod.mk.injEq] at h
    obtain ⟨hdb, hrow⟩ := h
    rw [← hdb, ← hrow]
    exact ⟨rfl, rfl, rfl, rfl⟩

/- ===== Claim C1 ===== -/

/-- C1 counterexample: on an actor that has a Member record, the second
`exclude_player` call returns `true` again (the claim says `false`) and
re-stamps the exclusion date, reason and excluded-by marker. -/
theorem exclude_member_second_call_counterexample :
    exclude_player exDbActive42 42 "r1" "@a1" 100 = .ok (exDbExcludedOnce, true)
    ∧ exclude_player exDbExcludedOnce 42 "r2" "@a2" 200 = .ok (exDbExcludedTwice, true)
    ∧ exDbExcludedTwice ≠ exDbExcludedOnce
    ∧ exDbExcludedOnce.players.map (fun r => r.exclusion_date) = [some 100]
    ∧ exDbExcludedTwice.players.map (fun r => r.exclusion_date) = [some 200] :=
  ⟨rfl, rfl, by decide, by decide, by decide⟩

/-- C1 (amended): for an actor with exactly one Member record,
`exclude_player` returns `true` on the first call and again `true` on a
second call; the second call overwrites the exclusion reason, date and
excluded-by marker with its own arguments; the call returns `false` when the
actor has no Member record. -/
theorem exclude_member_twice_restamps (db : DB) (tid : Int)
    (r1 e1 r2 e2 : String) (t1 t2 : Nat) (p : PlayerRow)
    (hone : playersWithId db tid = [p]) :
    (∃ db1 db2,
      exclude_player db tid r1 e1 t1 = .ok (db1, true)
      ∧ playersWithId db1 tid = [excludeStamp r1 e1 t1 p]
      ∧ (excludeStamp r1 e1 t1 p).status = "Отчислен"
      ∧ (excludeStamp r1 e1 t1 p).exclusion_date = some t1
      ∧ (excludeStamp r1 e1 t1 p).exclusion_reason = some r1
      ∧ (excludeStamp r1 e1 t1 p).excluded_by = some e1
      ∧ exclude_player db1 tid r2 e2 t2 = .ok (db2, true)
      ∧ playersWithId db2 tid = [excludeStamp r2 e2 t2 (excludeStamp r1 e1 t1 p)]
      ∧ (excludeStamp r2 e2 t2 (excludeStamp r1 e1 t1 p)).exclusion_date = some t2
      ∧ (excludeStamp r2 e2 t2 (excludeStamp r1 e1 t1 p)).exclusion_reason = some r2
      ∧ (excludeStamp r2 e2 t2 (excludeStamp r1 e1 t1 p)).excluded_by = some e2)
    ∧ (∀ (db0 : DB) (r e : String) (t : Nat), playersWithId db0 tid = [] →
        exclude_player db0 tid r e t = .ok (db0, false)) := by
  constructor
  · have hf1 := playersWithId_after_exclude db tid r1 e1 t1 [p] hone
    simp only [List.map_cons, List.map_nil] at hf1
    have h2 := exclude_player_of_one r2 e2 t2 hf1
    have hf2 := playersWithId_after_exclude _ tid r2 e2 t2 _ hf1
    simp only [List.map_cons, List.map_nil] at hf2
    exact ⟨_, _, exclude_player_of_one r1 e1 t1 hone, hf1, rfl, rfl, rfl, rfl,
      h2, hf2, rfl, rfl, rfl⟩
  · intro db0 r e t h0
    exact exclude_player_of_none r e t h0

/-- C1 witness: the amended theorem applied to a concrete one-member store. -/
theorem exclude_member_twice_restamps_witness :
    ∃ db1 db2,
      exclude_player exDbActive42 42 "r1" "@a1" 100 = .ok (db1, true)
      ∧ playersWithId db1 42 = [excludeStamp "r1" "@a1" 100 (mkPlayerRow 42 "@bob" "Bob" "Активен" 0)]
      ∧ (excludeStamp "r1" "@a1" 100 (mkPlayerRow 42 "@bob" "Bob" "Активен" 0)).status = "Отчислен"
      ∧ (excludeStamp "r1" "@a1" 100 (mkPlayerRow 42 "@bob" "Bob" "Активен" 0)).exclusion_date = some 100
      ∧ (excludeStamp "r1" "@a1" 100 (mkPlayerRow 42 "@bob" "Bob" "Активен" 0)).exclusion_reason = some "r1"
      ∧ (excludeStamp "r1" "@a1" 100 (mkPlayerRow 42 "@bob" "Bob" "Активен" 0)).excluded_by = some "@a1"
      ∧ exclude_player db1 42 "r2" "@a2" 200 = .ok (db2, true)
      ∧ playersWithId db2 42 = [excludeStamp "r2" "@a2" 200 (excludeStamp "r1" "@a1" 100 (mkPlayerRow 42 "@bob" "Bob" "Активен" 0))]
      ∧ (excludeStamp "r2" "@a2" 200 (excludeStamp "r1" "@a1" 100 (mkPlayerRow 42 "@bob" "Bob" "Активен" 0))).exclusion_date = some 200
      ∧ (excludeStamp "r2" "@a2" 200 (excludeStamp "r1" "@a1" 100 (mkPlayerRow 42 "@bob" "Bob" "Активен" 0))).exclusion_reason = some "r2"
      ∧ (excludeStamp "r2" "@a2" 200 (excludeStamp "r1" "@a1" 100 (mkPlayerRow 42 "@bob" "Bob" "Активен" 0))).excluded_by = some "@a2" :=
  (exclude_member_twice_restamps exDbActive42 42 "r1" "@a1" "r2" "@a2" 100 200
    (mkPlayerRow 42 "@bob" "Bob" "Активен" 0) (by decide)).1

/- ===== Claim C2 ===== -/

/-- C2 counterexample: a timestamp exactly at `now - window` is discarded by
the code (`ts > cutoff`), while the claim keeps it ("older than"): with
limit 1, window 60, history `[40]` and now 100 the code admits, the claimed
behavior denies. -/
theorem admission_cutoff_counterexample :
    rateLimitStep 1 60 [40] 100 = some ([100], false, 0)
    ∧ admissionSpecClaimed 1 60 [40] 100 = some ([40], true, 1)
    ∧ rateLimitStep 1 60 [40] 100 ≠ admissionSpecClaimed 1 60 [40] 100 := by
  decide

/-- C2 (amended): the admission check discards every timestamp at or older
than `now - window` (keeping only strictly newer ones), then denies with
`retry_after = window - (now - oldest_remaining) + 1` and records nothing
when at least `limit` remain, and otherwise admits and appends `now`; an
actor with empty history is always admitted. -/
theorem rate_limit_step_matches_amended_spec (limit : Nat) (window : Int)
    (history : List Int) (now : Int) :
    rateLimitStep limit window history now
        = admissionSpecAmended limit window history now
    ∧ (0 < limit → rateLimitStep limit window [] now = some ([now], false, 0)) := by
  constructor
  · unfold rateLimitStep is_rate_limited cleanup_old_timestamps admissionSpecAmended
    by_cases h : limit ≤ (history.filter (fun ts => now - window < ts)).length
    · rw [if_pos h, if_pos h]
      cases hmin : (history.filter (fun ts => now - window < ts)).min? with
      | none => rfl
      | some oldest => rfl
    · rw [if_neg h, if_neg h]
  · intro hpos
    unfold rateLimitStep is_rate_limited cleanup_old_timestamps
    simp only [List.filter_nil, List.length_nil]
    rw [if_neg (by omega)]
    rfl

/-- C2 witness: the amended theorem at the repository test's own vector and
at an empty history. -/
theorem rate_limit_step_matches_amended_spec_witness :
    rateLimitStep 5 60 [950, 970, 980, 990, 995] 1000
        = admissionSpecAmended 5 60 [950, 970, 980, 990, 995] 1000
    ∧ rateLimitStep 5 60 [] 1000 = some ([1000], false, 0) :=
  ⟨(rate_limit_step_matches_amended_spec 5 60 [950, 970, 980, 990, 995] 1000).1,
   (rate_limit_step_matches_amended_spec 5 60 [] 1000).2 (by decide)⟩

/- ===== Claim C3 ===== -/

/-- C3: an actor with `limit` admitted timestamps still inside the window is
denied with a strictly positive `retry_after`, and any request made at least
`retry_after` seconds after the denial (with no intervening admissions) is
admitted. -/
theorem rate_limit_denies_then_admits (limit : Nat) (window : Int)
    (hist : List Int) (now : Int) (hpos : 0 < limit)
    (hlen : hist.length = limit) (hwin : ∀ ts ∈ hist, now - window < ts) :
    ∃ retry_after : Int, 0 < retry_after
      ∧ rateLimitStep limit window hist now = some (hist, true, retry_after)
      ∧ ∀ w : Int, retry_after ≤ w →
          ∃ kept : List Int,
            rateLimitStep limit window hist (now + w) =
              some (kept ++ [now + w], false, 0) := by
  have hfilter : hist.filter (fun ts => now - window < ts) = hist :=
    List.filter_eq_self.mpr (by intro a ha; simpa using hwin a ha)
  have hne : hist ≠ [] := by
    intro h
    rw [h] at hlen
    simp at hlen
    omega
  obtain ⟨oldest, hmin⟩ : ∃ o, hist.min? = some o := by
    cases hist with
    | nil => exact absurd rfl hne
    | cons a t => exact ⟨_, rfl⟩
  have hmem : oldest ∈ hist := List.min?_mem (fun a b => min_choice a b) hmin
  have hold : now - window < oldest := hwin oldest hmem
  refine ⟨window - (now - oldest) + 1, by omega, ?_, ?_⟩
  · unfold rateLimitStep is_rate_limited cleanup_old_timestamps
    simp only [hfilter]
    rw [if_pos (le_of_eq hlen.symm), hmin]
  · intro w hw
    have hlt :
        (hist.filter (fun ts => now + w - window < ts)).length < limit := by
      have hdrop :
          (hist.filter (fun ts => now + w - window < ts)).length < hist.length :=
        List.length_filter_lt_length_iff_exists.mpr
          ⟨oldest, hmem, by
            intro hcontra
            rw [decide_eq_true_eq] at hcontra
            omega⟩
      omega
    have hlt2 :
        ¬ (limit ≤ (hist.filter (fun ts => now + w - window < ts)).length) := by
      omega
    unfold rateLimitStep is_rate_limited cleanup_old_timestamps
    dsimp only
    rw [if_neg hlt2]
    exact ⟨_, rfl⟩

/- ===== Claim C4 ===== -/

/-- C4: `/register` is rejected with already-a-member when a `players` row
exists (state and store unchanged, no pending row created), rejected with
already-pending when a pending row exists, and only otherwise advances the
conversation to the nickname-capture state. -/
theorem cmd_register_guards (db : DB) (uid : Int) (fsm : FSMContext) :
    (check_player_exists db uid = .ok true →
      cmd_register db uid fsm = .ok (db, .alreadyRegistered, fsm))
    ∧ (∀ p : PendingRow, check_player_exists db uid = .ok false →
        get_pending db uid = .ok (some p) →
        cmd_register db uid fsm = .ok (db, .alreadyPending, fsm))
    ∧ (check_player_exists db uid = .ok false → get_pending db uid = .ok none →
        cmd_register db uid fsm =
          .ok (db, .startRegistration,
               { fsm with state := some .waiting_for_nickname })) := by
  refine ⟨?_, ?_, ?_⟩
  · intro h
    unfold cmd_register
    rw [h]
    rfl
  · intro p h1 h2
    unfold cmd_register
    rw [h1, h2]
    rfl
  · intro h1 h2
    unfold cmd_register
    rw [h1, h2]
    rfl

/-- C4 witness: the three guard branches on concrete stores. -/
theorem cmd_register_guards_witness :
    cmd_register exDbActive42 42 FSMContext.clear
        = .ok (exDbActive42, .alreadyRegistered, FSMContext.clear)
    ∧ cmd_register exDbPending7 7 FSMContext.clear
        = .ok (exDbPending7, .alreadyPending, FSMContext.clear)
    ∧ cmd_register exDbActive42 99 FSMContext.clear
        = .ok (exDbActive42, .startRegistration,
               { FSMContext.clear with state := some .waiting_for_nickname }) :=
  ⟨(cmd_register_guards exDbActive42 42 FSMContext.clear).1 rfl,
   (cmd_register_guards exDbPending7 7 FSMContext.clear).2.1
     (mkPendingRow 7 "@eve" "Eve" 3) rfl rfl,
   (cmd_register_guards exDbActive42 99 FSMContext.clear).2.2 rfl rfl⟩

/- ===== Claim C5 ===== -/

/-- C5: approval loads the pending request — absent signals not-found and
changes nothing; an existing member signals already-registered and removes
the stale pending row; otherwise a Member with status `Активен` and added-by
the approver's handle is added and the pending row removed, so afterwards an
active Member exists and no pending request remains for that actor. -/
theorem process_approve_spec (db : DB) (tid : Int) (fu : Option String)
    (fid : Int) (today : String) (now : Nat) :
    (pendingsWithId db tid = [] →
      process_approve db tid fu fid today now = .ok (db, .requestNotFound))
    ∧ (∀ (p : PendingRow) (m : PlayerRow),
        pendingsWithId db tid = [p] → playersWithId db tid = [m] →
        process_approve db tid fu fid today now =
          .ok ({ db with
                  pendings := db.pendings.filter (fun r => !(r.telegram_id == tid)) },
               .alreadyRegistered))
    ∧ (∀ p : PendingRow, pendingsWithId db tid = [p] → playersWithId db tid = [] →
        ∃ row : PlayerRow,
          process_approve db tid fu fid today now =
            .ok ({ players := db.players ++ [row],
                   pendings := db.pendings.filter (fun r => !(r.telegram_id == tid)) },
                 .approved p.nickname)
          ∧ row.telegram_id = tid ∧ row.status = "Активен"
          ∧ row.username = p.username ∧ row.nickname = p.nickname
          ∧ row.added_by = atHandle fu fid
          ∧ (∃ r ∈ db.players ++ [row], r.telegram_id = tid ∧ r.status = "Активен")
          ∧ (∀ r ∈ db.pendings.filter (fun r => !(r.telegram_id == tid)),
              r.telegram_id ≠ tid)) := by
  refine ⟨?_, ?_, ?_⟩
  · intro h
    unfold process_approve
    rw [get_pending_of_none h]
    rfl
  · intro p m hp hm
    unfold process_approve
    rw [get_pending_of_one hp, check_player_exists_of_one hm,
        remove_pending_of_one hp]
    rfl
  · intro p hp hm
    have hpmem : p ∈ db.pendings.filter (fun r => r.telegram_id == tid) := by
      have : p ∈ pendingsWithId db tid := by rw [hp]; exact List.mem_singleton.mpr rfl
      simpa [pendingsWithId] using this
    have hpid : p.telegram_id = tid := by
      simpa using (List.mem_filter.mp hpmem).2
    have hplayers : db.players.filter (fun r => r.telegram_id == tid) = [] := hm
    have hfresh : ∀ r ∈ db.players, r.telegram_id ≠ p.telegram_id := by
      intro r hr
      have hnot := List.filter_eq_nil_iff.mp hplayers r hr
      rw [hpid]
      simpa using hnot
    obtain ⟨row, hadd, hrt, hru, hrn, hrs, hrab, hrc, _⟩ :=
      add_player_ok_of_fresh db
        { telegram_id := p.telegram_id
          username := p.username
          nickname := p.nickname
          screenshot_path := some p.screenshot_path
          registration_date := today
          status := "Активен"
          added_by := atHandle fu fid
          notes := "Одобрено через бот" } now hfresh
    have hrem :=
      @remove_pending_of_one { db with players := db.players ++ [row] } tid p hp
    have hrt2 : row.telegram_id = tid := by rw [hrt]; exact hpid
    have step1 : process_approve db tid fu fid today now =
        (match add_player db
            { telegram_id := p.telegram_id
              username := p.username
              nickname := p.nickname
              screenshot_path := some p.screenshot_path
              registration_date := today
              status := "Активен"
              added_by := atHandle fu fid
              notes := "Одобрено через бот" } now with
          | .error _ => (Except.ok (db, Reply.approveFailed) : Except RepoError (DB × Reply))
          | .ok (db1, _) =>
            match remove_pending db1 tid with
            | .error _ => (Except.ok (db1, Reply.approveFailed) : Except RepoError (DB × Reply))
            | .ok (db2, _) => Except.ok (db2, Reply.approved p.nickname)) := by
      unfold process_approve
      rw [get_pending_of_one hp, check_player_exists_of_none hm]
      rfl
    have step2 : (match add_player db
            { telegram_id := p.telegram_id
              username := p.username
              nickname := p.nickname
              screenshot_path := some p.screenshot_path
              registration_date := today
              status := "Активен"
              added_by := atHandle fu fid
              notes := "Одобрено через бот" } now with
          | .error _ => (Except.ok (db, Reply.approveFailed) : Except RepoError (DB × Reply))
          | .ok (db1, _) =>
            match remove_pending db1 tid with
            | .error _ => (Except.ok (db1, Reply.approveFailed) : Except RepoError (DB × Reply))
            | .ok (db2, _) => Except.ok (db2, Reply.approved p.nickname)) =
        (match remove_pending { db with players := db.players ++ [row] } tid with
          | .error _ =>
              (Except.ok ({ db with players := db.players ++ [row] }, Reply.approveFailed) : Except RepoError (DB × Reply))
          | .ok (db2, _) => Except.ok (db2, Reply.approved p.nickname)) := by
      rw [hadd]
    have step3 : (match remove_pending { db with players := db.players ++ [row] } tid with
          | .error _ =>
              (Except.ok ({ db with players := db.players ++ [row] }, Reply.approveFailed) : Except RepoError (DB × Reply))
          | .ok (db2, _) => Except.ok (db2, Reply.approved p.nickname)) =
        Except.ok ({ players := db.players ++ [row],
                     pendings := db.pendings.filter (fun r => !(r.telegram_id == tid)) },
                   Reply.approved p.nickname) := by
      rw [hrem]
    refine ⟨row, step1.trans (step2.trans step3), hrt2, hrs, hru, hrn, hrab, ?_, ?_⟩
    · exact ⟨row, List.mem_append_right _ (List.mem_singleton.mpr rfl),
        hrt2, hrs⟩
    · intro r hr
      have := (List.mem_filter.mp hr).2
      simpa using this

/-- C5 witness: approving the concrete pending request of actor 7. -/
theorem process_approve_spec_witness :
    ∃ row : PlayerRow,
      process_approve exDbPending7 7 (some "chief") 1 "2026-01-01" 9 =
        .ok ({ players := exDbPending7.players ++ [row],
               pendings := exDbPending7.pendings.filter (fun r => !(r.telegram_id == 7)) },
             .approved (mkPendingRow 7 "@eve" "Eve" 3).nickname)
      ∧ row.telegram_id = 7 ∧ row.status = "Активен"
      ∧ row.username = (mkPendingRow 7 "@eve" "Eve" 3).username
      ∧ row.nickname = (mkPendingRow 7 "@eve" "Eve" 3).nickname
      ∧ row.added_by = atHandle (some "chief") 1
      ∧ (∃ r ∈ exDbPending7.players ++ [row], r.telegram_id = 7 ∧ r.status = "Активен")
      ∧ (∀ r ∈ exDbPending7.pendings.filter (fun r => !(r.telegram_id == 7)),
          r.telegram_id ≠ 7) :=
  (process_approve_spec exDbPending7 7 (some "chief") 1 "2026-01-01" 9).2.2
    (mkPendingRow 7 "@eve" "Eve" 3) (by decide) (by decide)

/- ===== Claim C6 ===== -/

/-- C6: `add_player` fails with the uniqueness-constraint conflict exactly
when a `players` row with the same actor id already exists, and otherwise
appends exactly one row and touches nothing else; `save_pending` behaves the
same way on the pending table. -/
theorem duplicate_actor_conflicts (db : DB) (p : Player)
    (q : PendingRegistration) (now : Nat) :
    (add_player db p now = .error .integrityError
        ↔ ∃ r ∈ db.players, r.telegram_id = p.telegram_id)
    ∧ (∀ (db' : DB) (row : PlayerRow), add_player db p now = .ok (db', row) →
        db'.players = db.players ++ [row] ∧ db'.pendings = db.pendings
        ∧ row.telegram_id = p.telegram_id)
    ∧ (save_pending db q now = .error .integrityError
        ↔ ∃ r ∈ db.pendings, r.telegram_id = q.telegram_id)
    ∧ (∀ (db' : DB) (row : PendingRow), save_pending db q now = .ok (db', row) →
        db'.pendings = db.pendings ++ [row] ∧ db'.players = db.players
        ∧ row.telegram_id = q.telegram_id) := by
  refine ⟨?_, ?_, ?_, ?_⟩
  · by_cases hany : db.players.any (fun r => r.telegram_id == p.telegram_id)
    · constructor
      · intro _
        obtain ⟨r, hr, hb⟩ := List.any_eq_true.mp hany
        exact ⟨r, hr, by simpa using hb⟩
      · intro _
        unfold add_player
        rw [if_pos hany]
    · constructor
      · intro h
        unfold add_player at h
        rw [if_neg hany] at h
        exact absurd h (by simp)
      · rintro ⟨r, hr, he⟩
        have hf : db.players.any (fun r => r.telegram_id == p.telegram_id) = false := by
          simpa using hany
        have := List.any_eq_false.mp hf r hr
        exact absurd (by simpa using he) this
  · intro db' row h
    by_cases hany : db.players.any (fun r => r.telegram_id == p.telegram_id)
    · unfold add_player at h
      rw [if_pos hany] at h
      exact absurd h (by simp)
    · unfold add_player at h
      rw [if_neg hany] at h
      simp only [Except.ok.injEq, Prod.mk.injEq] at h
      obtain ⟨hdb, hrow⟩ := h
      refine ⟨?_, ?_, ?_⟩
      · rw [← hdb, ← hrow]
      · rw [← hdb]
      · rw [← hrow]
  · by_cases hany : db.pendings.any (fun r => r.telegram_id == q.telegram_id)
    · constructor
      · intro _
        obtain ⟨r, hr, hb⟩ := List.any_eq_true.mp hany
        exact ⟨r, hr, by simpa using hb⟩
      · intro _
        unfold save_pending
        rw [if_pos hany]
    · constructor
      · intro h
        unfold save_pending at h
        rw [if_neg hany] at h
        exact absurd h (by simp)
      · rintro ⟨r, hr, he⟩
        have hf : db.pendings.any (fun r => r.telegram_id == q.telegram_id) = false := by
          simpa using hany
        have := List.any_eq_false.mp hf r hr
        exact absurd (by simpa using he) this
  · intro db' row h
    by_cases hany : db.pendings.any (fun r => r.telegram_id == q.telegram_id)
    · unfold save_pending at h
      rw [if_pos hany] at h
      exact absurd h (by simp)
    · unfold save_pending at h
      rw [if_neg hany] at h
      simp only [Except.ok.injEq, Prod.mk.injEq] at h
      obtain ⟨hdb, hrow⟩ := h
      refine ⟨?_, ?_, ?_⟩
      · rw [← hdb, ← hrow]
      · rw [← hdb]
      · rw [← hrow]

/-- C6 witness: a duplicate insert for actor 42 fails with the constraint
conflict; an insert for a fresh actor id succeeds. -/
theorem duplicate_actor_conflicts_witness :
    add_player exDbActive42
        { telegram_id := 42, username := "@dup2", nickname := "Dup",
          screenshot_path := none, registration_date := "d", status := "Активен",
          added_by := "bot", notes := "" } 5
      = .error .integrityError
    ∧ ∃ r ∈ exDbActive42.players, r.telegram_id =
        ({ telegram_id := 42, username := "@dup2", nickname := "Dup",
           screenshot_path := none, registration_date := "d", status := "Активен",
           added_by := "bot", notes := "" } : Player).telegram_id :=
  have hex : ∃ r ∈ exDbActive42.players, r.telegram_id =
      ({ telegram_id := 42, username := "@dup2", nickname := "Dup",
         screenshot_path := none, registration_date := "d", status := "Активен",
         added_by := "bot", notes := "" } : Player).telegram_id :=
    ⟨mkPlayerRow 42 "@bob" "Bob" "Активен" 0, by decide, by decide⟩
  ⟨(duplicate_actor_conflicts exDbActive42
      { telegram_id := 42, username := "@dup2", nickname := "Dup",
        screenshot_path := none, registration_date := "d", status := "Активен",
        added_by := "bot", notes := "" }
      { telegram_id := 42, username := "@x", nickname := "X",
        screenshot_path := "s", timestamp := "t" } 5).1.mpr hex, hex⟩

/- ===== Claim C7 ===== -/

/-- `validate_nickname` in closed form: empty-after-strip or longer than 15
characters fails with the respective message, anything else passes (the
inner `length < 1` branch is unreachable after the emptiness check). -/
theorem validate_nickname_eq (s : String) :
    validate_nickname s =
      if pyStrip s = "" then (false, "Ник не может быть пустым")
      else if 15 < (pyStrip s).length then
        (false, "Ник слишком длинный. Максимум 15 символов")
      else (true, "") := by
  unfold validate_nickname
  by_cases h0 : pyStrip s = ""
  · rw [if_pos h0, if_pos h0]
  · rw [if_neg h0, if_neg h0]
    dsimp only
    have hlen : ¬ ((pyStrip s).length < 1) := by
      intro hc
      apply h0
      apply (string_eq_empty_iff (pyStrip s)).mpr
      have hdl : (pyStrip s).length = (pyStrip s).data.length := rfl
      exact List.length_eq_zero.mp (by omega)
    rw [if_neg hlen]

/-- C7: a text message in the nickname-capture state advances the
conversation to the proof-capture state exactly when the trimmed text is
non-empty and at most 15 characters; on a failure the actor is re-prompted
with the violated rule named and the state is unchanged. -/
theorem process_nickname_guard (t : String) (fsm : FSMContext)
    (hstate : fsm.state = some .waiting_for_nickname) :
    ((process_nickname t fsm).2.state = some .waiting_for_screenshot
        ↔ (pyStrip t ≠ "" ∧ (pyStrip t).length ≤ 15))
    ∧ (pyStrip t = "" →
        process_nickname t fsm = (.nicknameInvalid "Ник не может быть пустым", fsm))
    ∧ (pyStrip t ≠ "" → 15 < (pyStrip t).length →
        process_nickname t fsm =
          (.nicknameInvalid "Ник слишком длинный. Максимум 15 символов", fsm))
    ∧ (pyStrip t ≠ "" → (pyStrip t).length ≤ 15 →
        process_nickname t fsm =
          (.nicknameAccepted (pyStrip t),
           { state := some .waiting_for_screenshot,
             nickname := some (pyStrip t) })) := by
  have hval : validate_nickname (pyStrip t) =
      if pyStrip t = "" then (false, "Ник не может быть пустым")
      else if 15 < (pyStrip t).length then
        (false, "Ник слишком длинный. Максимум 15 символов")
      else (true, "") := by
    rw [validate_nickname_eq (pyStrip t), pyStrip_idem]
  have hfail1 : pyStrip t = "" →
      process_nickname t fsm = (.nicknameInvalid "Ник не может быть пустым", fsm) := by
    intro h0
    unfold process_nickname
    dsimp only
    rw [hval, if_pos h0]
    rfl
  have hfail2 : pyStrip t ≠ "" → 15 < (pyStrip t).length →
      process_nickname t fsm =
        (.nicknameInvalid "Ник слишком длинный. Максимум 15 символов", fsm) := by
    intro h0 h1
    unfold process_nickname
    dsimp only
    rw [hval, if_neg h0, if_pos h1]
    rfl
  have hok : pyStrip t ≠ "" → (pyStrip t).length ≤ 15 →
      process_nickname t fsm =
        (.nicknameAccepted (pyStrip t),
         { state := some .waiting_for_screenshot,
           nickname := some (pyStrip t) }) := by
    intro h0 h1
    unfold process_nickname
    dsimp only
    rw [hval, if_neg h0, if_neg (not_lt.mpr h1)]
    rfl
  refine ⟨⟨?_, ?_⟩, hfail1, hfail2, hok⟩
  · intro hadv
    by_cases h0 : pyStrip t = ""
    · rw [hfail1 h0] at hadv
      simp [hstate] at hadv
    · by_cases h1 : 15 < (pyStrip t).length
      · rw [hfail2 h0 h1] at hadv
        simp [hstate] at hadv
      · exact ⟨h0, not_lt.mp h1⟩
  · rintro ⟨h0, h1⟩
    rw [hok h0 h1]

/-- C7 witness: a padded valid nickname advances the state; an over-long one
re-prompts in place. -/
theorem process_nickname_guard_witness :
    process_nickname " Raven " { state := some .waiting_for_nickname, nickname := none } =
      (.nicknameAccepted (pyStrip " Raven "),
       { state := some .waiting_for_screenshot, nickname := some (pyStrip " Raven ") })
    ∧ process_nickname "0123456789012345"
        { state := some .waiting_for_nickname, nickname := none } =
      (.nicknameInvalid "Ник слишком длинный. Максимум 15 символов",
       { state := some .waiting_for_nickname, nickname := none }) :=
  ⟨(process_nickname_guard " Raven "
      { state := some .waiting_for_nickname, nickname := none } rfl).2.2.2
      (by decide) (by decide),
   (process_nickname_guard "0123456789012345"
      { state := some .waiting_for_nickname, nickname := none } rfl).2.2.1
      (by decide) (by decide)⟩

/- ===== Claim C8 ===== -/

/-- C8: every `admin_only`-gated operation invoked by an actor other than the
configured leader answers access-denied, leaves the store unchanged, and the
wrapped handler does not run (the outcome is the same for every handler);
instantiated at approve, reject, exclude, list-pending and list-members. -/
theorem admin_gate_denies (leader_telegram_id user_id : Int)
    (h : user_id ≠ leader_telegram_id) :
    (∀ (ρ : Type) (handler : DB → Except RepoError (DB × ρ)) (db : DB),
        admin_only leader_telegram_id user_id handler db = .ok (db, .accessDenied))
    ∧ (∀ (db : DB) (tid : Int) (fu : Option String) (fid : Int) (today : String)
        (now : Nat),
        admin_only leader_telegram_id user_id
          (fun d => process_approve d tid fu fid today now) db
          = .ok (db, .accessDenied))
    ∧ (∀ (db : DB) (tid : Int),
        admin_only leader_telegram_id user_id (fun d => process_reject d tid) db
          = .ok (db, .accessDenied))
    ∧ (∀ (db : DB) (uarg reason : String) (fu : Option String) (fid : Int)
        (now : Nat),
        admin_only leader_telegram_id user_id
          (fun d => cmd_exclude d uarg reason fu fid now) db
          = .ok (db, .accessDenied))
    ∧ (∀ db : DB, admin_only leader_telegram_id user_id cmd_pending db
          = .ok (db, .accessDenied))
    ∧ (∀ db : DB, admin_only leader_telegram_id user_id cmd_list db
          = .ok (db, .accessDenied)) := by
  have hgen : ∀ (ρ : Type) (handler : DB → Except RepoError (DB × ρ)) (db : DB),
      admin_only leader_telegram_id user_id handler db = .ok (db, .accessDenied) := by
    intro ρ handler db
    unfold admin_only
    rw [if_pos h]
  exact ⟨hgen,
    fun db tid fu fid today now => hgen _ _ db,
    fun db tid => hgen _ _ db,
    fun db uarg reason fu fid now => hgen _ _ db,
    fun db => hgen _ _ db,
    fun db => hgen _ _ db⟩

/-- C8 witness: a non-leader actor is denied on the list and exclude
operations over a concrete store. -/
theorem admin_gate_denies_witness :
    admin_only 1 2 cmd_pending exDbActive42 = .ok (exDbActive42, .accessDenied)
    ∧ admin_only 1 2 (fun d => cmd_exclude d "bob" "reason" (some "mallory") 2 5)
        exDbActive42 = .ok (exDbActive42, .accessDenied) :=
  ⟨(admin_gate_denies 1 2 (by decide)).2.2.2.2.1 exDbActive42,
   (admin_gate_denies 1 2 (by decide)).2.2.2.1 exDbActive42 "bob" "reason"
     (some "mallory") 2 5⟩

/- ===== Claim C9 ===== -/

/-- C9: the display handle stamped on a submission always begins with `@`:
the transport username is `@`-prefixed when the prefix is missing, and
`user_<id>` is synthesized (then `@`-prefixed) when the username is absent or
empty; consequently every pending row the submission step persists carries an
`@`-prefixed handle. -/
theorem pending_username_at_prefixed :
    (∀ (u : Option String) (uid : Int),
        startswith (pendingUsername u uid) "@" = true)
    ∧ (∀ (db : DB) (uid : Int) (u : Option String) (fsm : FSMContext)
        (dir ts : String) (now : Nat) (db' : DB) (rep : Reply)
        (fsm' : FSMContext),
        process_screenshot db uid u fsm dir ts now = .ok (db', rep, fsm') →
        ∀ r ∈ db'.pendings, r ∈ db.pendings ∨ startswith r.username "@" = true) := by
  have hat : ∀ s : String, startswith ("@" ++ s) "@" = true := by
    intro s
    show List.isPrefixOf "@".data ("@" ++ s).data = true
    rw [String.data_append, List.isPrefixOf_iff_prefix]
    exact List.prefix_append _ _
  have hmain : ∀ (u : Option String) (uid : Int),
      startswith (pendingUsername u uid) "@" = true := by
    have hgen : ∀ s : String,
        startswith (if startswith s "@" = true then s else "@" ++ s) "@" = true := by
      intro s
      by_cases hs : startswith s "@" = true
      · rw [if_pos hs]
        exact hs
      · rw [if_neg hs]
        exact hat s
    intro u uid
    unfold pendingUsername
    dsimp only
    exact hgen _
  refine ⟨hmain, ?_⟩
  intro db uid u fsm dir ts now db' rep fsm' h r hr
  cases hn : fsm.nickname with
  | none =>
    have hstep : process_screenshot db uid u fsm dir ts now =
        Except.ok (db, Reply.nicknameMissing, FSMContext.clear) := by
      unfold process_screenshot
      rw [hn]
    rw [hstep] at h
    simp only [Except.ok.injEq, Prod.mk.injEq] at h
    rw [← h.1] at hr
    exact Or.inl hr
  | some nickname =>
    have hstep : process_screenshot db uid u fsm dir ts now =
        (if nickname = "" then
          Except.ok (db, Reply.nicknameMissing, FSMContext.clear)
        else
          ((match save_pending db
              { telegram_id := uid
                username := pendingUsername u uid
                nickname := nickname
                screenshot_path :=
                  dir ++ "/screenshot_" ++ toString uid ++ "_" ++ ts ++ ".jpg"
                timestamp := ts } now with
            | .error _ => Except.ok (db, Reply.saveFailed, FSMContext.clear)
            | .ok (db1, _) =>
                Except.ok (db1, Reply.applicationSubmitted nickname,
                  FSMContext.clear)) :
            Except RepoError (DB × Reply × FSMContext))) := by
      unfold process_screenshot
      rw [hn]
    rw [hstep] at h
    by_cases hne : nickname = ""
    · rw [if_pos hne] at h
      simp only [Except.ok.injEq, Prod.mk.injEq] at h
      rw [← h.1] at hr
      exact Or.inl hr
    · rw [if_neg hne] at h
      rcases hsv : save_pending db
          { telegram_id := uid
            username := pendingUsername u uid
            nickname := nickname
            screenshot_path :=
              dir ++ "/screenshot_" ++ toString uid ++ "_" ++ ts ++ ".jpg"
            timestamp := ts } now with e | pr
      · rw [hsv] at h
        simp only [Except.ok.injEq, Prod.mk.injEq] at h
        rw [← h.1] at hr
        exact Or.inl hr
      · obtain ⟨db1, rowp⟩ := pr
        rw [hsv] at h
        simp only [Except.ok.injEq, Prod.mk.injEq] at h
        obtain ⟨hshape, _, husr, _⟩ := save_pending_ok_shape hsv
        rw [← h.1, hshape] at hr
        rcases List.mem_append.mp hr with hl | hrr
        · exact Or.inl hl
        · right
          rw [List.mem_singleton.mp hrr, husr]
          exact hmain u uid

/-- C9 witness: a submission by an actor with no transport username persists
the synthesized, `@`-prefixed handle `@user_5`. -/
theorem pending_username_at_prefixed_witness :
    PendingRow.mk 5 "@user_5" "Raven" "shots/screenshot_5_20260101.jpg" 4
        ∈ (DB.mk [] []).pendings
    ∨ startswith
        (PendingRow.mk 5 "@user_5" "Raven" "shots/screenshot_5_20260101.jpg" 4).username
        "@" = true :=
  pending_username_at_prefixed.2 (DB.mk [] []) 5 none
    { state := some .waiting_for_screenshot, nickname := some "Raven" }
    "shots" "20260101" 4
    (DB.mk [] [PendingRow.mk 5 "@user_5" "Raven" "shots/screenshot_5_20260101.jpg" 4])
    (.applicationSubmitted "Raven") FSMContext.clear rfl
    (PendingRow.mk 5 "@user_5" "Raven" "shots/screenshot_5_20260101.jpg" 4)
    (by decide)

/- ===== Claim C10 ===== -/

/-- C10: member handles carry no uniqueness constraint (an insert succeeds
whenever the actor id is fresh, whatever the handle), and `/exclude` resolves
a handle to the first match of the newest-first listing — a most recently
created matching member — and stamps exclusion on that member's row only. -/
theorem cmd_exclude_newest_match (db : DB) (username_arg reason : String)
    (fu : Option String) (fid : Int) (now : Nat) (x : PlayerRow)
    (hfind : (get_all_players db).find?
        (fun p => p.username == normalize_username username_arg) = some x)
    (hactive : (x.status == "Отчислен") = false)
    (hone : playersWithId db x.telegram_id = [x]) :
    x.username = normalize_username username_arg
    ∧ (∀ y ∈ db.players, y.username = normalize_username username_arg →
        y.created_at ≤ x.created_at)
    ∧ (∀ (pl : Player) (t : Nat),
        (∀ r ∈ db.players, r.telegram_id ≠ pl.telegram_id) →
        ∃ (db1 : DB) (row : PlayerRow), add_player db pl t = .ok (db1, row))
    ∧ ∃ db1 : DB,
        cmd_exclude db username_arg reason fu fid now =
          .ok (db1, .excluded x.nickname (normalize_username username_arg) reason)
        ∧ db1.players = db.players.map (fun r =>
            if r.telegram_id == x.telegram_id then
              excludeStamp reason (atHandle fu fid) now r
            else r)
        ∧ (∀ y ∈ db.players, y.telegram_id ≠ x.telegram_id → y ∈ db1.players)
        ∧ playersWithId db1 x.telegram_id =
            [excludeStamp reason (atHandle fu fid) now x] := by
  refine ⟨?_, ?_, ?_, ?_⟩
  · simpa using List.find?_some hfind
  · intro y hy hyu
    have hfind2 : (sortDescBy (fun p => p.created_at) db.players).find?
        (fun p => p.username == normalize_username username_arg) = some x := hfind
    have hy2 : y ∈ sortDescBy (fun p => p.created_at) db.players :=
      (mem_sortDescBy _ y _).mpr hy
    exact find?_pairwise_key_max (fun p => p.created_at) _ _
      (pairwise_sortDescBy _ _) x hfind2 y hy2 (by simpa using hyu)
  · intro pl t hfresh
    obtain ⟨row, hok, _⟩ := add_player_ok_of_fresh db pl t hfresh
    exact ⟨_, row, hok⟩
  · have hnotexc : ¬ ((x.status == "Отчислен") = true) := by
      rw [hactive]
      simp
    have hexc := @exclude_player_of_one db x.telegram_id x
      reason (atHandle fu fid) now hone
    have step1 : cmd_exclude db username_arg reason fu fid now =
        (if (x.status == "Отчислен") = true then
          Except.ok (db, Reply.alreadyExcluded (normalize_username username_arg))
        else
          ((match exclude_player db x.telegram_id reason (atHandle fu fid) now with
            | .error _ => Except.ok (db, Reply.excludeFailed)
            | .ok (db1, _) =>
                Except.ok (db1,
                  Reply.excluded x.nickname (normalize_username username_arg) reason)) :
            Except RepoError (DB × Reply))) := by
      unfold cmd_exclude
      dsimp only
      rw [hfind]
    have step2 : cmd_exclude db username_arg reason fu fid now =
        Except.ok
          ({ db with players := db.players.map (fun r =>
              if r.telegram_id == x.telegram_id then
                excludeStamp reason (atHandle fu fid) now r
              else r) },
           Reply.excluded x.nickname (normalize_username username_arg) reason) := by
      rw [step1, if_neg hnotexc, hexc]
    refine ⟨_, step2, rfl, ?_, ?_⟩
    · intro y hy hne
      have hyy : (fun r =>
          if r.telegram_id == x.telegram_id then
            excludeStamp reason (atHandle fu fid) now r
          else r) y = y := by
        simp [beq_eq_false_iff_ne.mpr hne]
      exact hyy ▸ List.mem_map_of_mem _ hy
    · have := playersWithId_after_exclude db x.telegram_id reason
        (atHandle fu fid) now [x] hone
      simpa using this

/-- C10 witness: with two members sharing the handle `@dup`, `/exclude`
resolves to the most recently created one. -/
theorem cmd_exclude_newest_match_witness :
    (mkPlayerRow 11 "@dup" "New" "Активен" 2).username = normalize_username "dup"
    ∧ (mkPlayerRow 10 "@dup" "Old" "Активен" 1).created_at
        ≤ (mkPlayerRow 11 "@dup" "New" "Активен" 2).created_at :=
  have h := cmd_exclude_newest_match exDbDupHandles "dup" "rule violation"
    (some "boss") 1 50 (mkPlayerRow 11 "@dup" "New" "Активен" 2)
    (by decide) (by decide) (by decide)
  ⟨h.1, h.2.1 (mkPlayerRow 10 "@dup" "Old" "Активен" 1) (by decide) (by decide)⟩

/-- C3 witness: limit 1, window 60, one admitted request at time 100. -/
theorem rate_limit_denies_then_admits_witness :
    ∃ retry_after : Int, 0 < retry_after
      ∧ rateLimitStep 1 60 [100] 100 = some ([100], true, retry_after)
      ∧ ∀ w : Int, retry_after ≤ w →
          ∃ kept : List Int,
            rateLimitStep 1 60 [100] (100 + w) =
              some (kept ++ [100 + w], false, 0) :=
  rate_limit_denies_then_admits 1 60 [100] 100 (by decide) (by decide) (by decide)

end ClanBot
